import Mathlib

/-!
Shallow embedding of the Monaco-based editor shell (`src/src/index.js`).

The program keeps a module-level list of tabs, a monotonically increasing
tab-id counter, and an active-tab id (-1 denotes "no active tab").  Each tab
owns one Monaco text model; exactly one Monaco editor instance displays the
active tab's model.  The surgical-replace dialog parses user-supplied JSON
and applies a single range edit to the active model.

Monaco (the external editor widget) is modelled by its documented behaviour:
a model's content is the newline-separated list of its lines; positions are
1-based (line, column) pairs; `getLineMaxColumn` is the line length plus one;
a range edit replaces the characters from (startLine, startColumn) up to but
not including (endLine, endColumn); `saveViewState`/`restoreViewState`
capture and restore the editor's scroll/cursor state; `setModel` resets the
view state.  JavaScript truthiness on strings and numbers (empty string and
0 are falsy) is embedded explicitly wherever the source relies on it.
-/

namespace MonacoViewer

/-- Monaco editor view state (scroll offset plus cursor position), saved by
`editor.saveViewState()` and restored by `editor.restoreViewState()`. -/
structure ViewState where
  scrollTop : Nat
  cursorLine : Nat
  cursorColumn : Nat
deriving DecidableEq, Repr

/-- The view state a freshly attached model starts with (`editor.setModel`
resets scroll and cursor). -/
def freshViewState : ViewState := ⟨0, 1, 1⟩

/-- The single visible Monaco editor instance: which tab's model it shows
(`none` = `setModel(null)`) and its live view state. -/
structure EditorView where
  modelOf : Option Int
  viewSt : ViewState
deriving DecidableEq, Repr

/-- One open document tab (`index.js` lines 243-249).  `text` is the
content of the tab's owned Monaco model; `language` its language mode. -/
structure Tab where
  id : Int
  path : Option String
  text : String
  language : String
  viewState : Option ViewState
  isDirty : Bool
deriving DecidableEq, Repr

/-- The module-level mutable state of `index.js`: `tabs`, `nextTabId`,
`activeTabId`, the editor instance, plus the surgical-dialog visibility
(`surgical-modal-overlay`'s `hidden` class) and whether keyboard focus is on
the editor. -/
structure AppState where
  tabs : List Tab
  nextTabId : Int
  activeTabId : Int
  editor : EditorView
  dialogOpen : Bool
  editorFocused : Bool
deriving DecidableEq, Repr

/-- `getTab` (line 189): first tab whose id matches. -/
def getTab (st : AppState) (tabId : Int) : Option Tab :=
  st.tabs.find? (fun t => t.id == tabId)

/-- `getActiveTab` (line 190). -/
def getActiveTab (st : AppState) : Option Tab :=
  getTab st st.activeTabId

/-- JavaScript truthiness of a nullable string (`null`, `undefined` and `""`
are falsy). -/
def pathTruthy : Option String → Bool
  | none => false
  | some s => s != ""

/-- `languageFromPath` (lines 191-197).  `langs` stands for
`monaco.languages.getLanguages()`: pairs of a language id and its extension
list. -/
def languageFromPath (langs : List (String × List String)) (p : Option String) : String :=
  match p with
  | none => "plaintext"
  | some s =>
    if s = "" then "plaintext"
    else
      let ext := "." ++ (s.splitOn ".").getLastD ""
      match langs.find? (fun l => l.2.contains ext) with
      | some l => l.1
      | none => "plaintext"

/-- Lines 223-226 of `switchTab`: when some tab is active, its saved view
state is overwritten with the editor's live view state
(`currentTab.viewState = editor.saveViewState()`). -/
def saveViewTabs (st : AppState) : List Tab :=
  match getActiveTab st with
  | some _ =>
    st.tabs.map (fun t =>
      if t.id == st.activeTabId then { t with viewState := some st.editor.viewSt } else t)
  | none => st.tabs

/-- `switchTab` (lines 221-235): no-op when the tab is already active;
otherwise saves the active tab's view state, moves the active pointer, swaps
the visible model (which resets the view state), restores the new tab's
saved view state when present, and focuses the editor. -/
def switchTab (st : AppState) (tabId : Int) : AppState :=
  if st.activeTabId = tabId then st
  else
    let st1 : AppState := { st with tabs := saveViewTabs st, activeTabId := tabId }
    let newTab := getTab st1 tabId
    let ed0 : EditorView := { modelOf := newTab.map (·.id), viewSt := freshViewState }
    let ed :=
      match newTab with
      | some t =>
        match t.viewState with
        | some v => { ed0 with viewSt := v }
        | none => ed0
      | none => ed0
    { st1 with editor := ed, editorFocused := true }

/-- `addTab` (lines 237-258).  The dedup lookup runs only when `path` is
truthy (`path ? tabs.find(...) : null`); otherwise a fresh tab (clean, no
view state) is appended and switched to. -/
def addTab (langs : List (String × List String)) (st : AppState)
    (path : Option String) (text : String) : AppState :=
  let existing := if pathTruthy path then st.tabs.find? (fun t => t.path == path) else none
  match existing with
  | some t => switchTab st t.id
  | none =>
    let newTab : Tab :=
      { id := st.nextTabId, path := path, text := text,
        language := languageFromPath langs path, viewState := none, isDirty := false }
    let st1 : AppState := { st with tabs := st.tabs ++ [newTab], nextTabId := st.nextTabId + 1 }
    switchTab st1 newTab.id

/-- The content-change observer registered in `addTab` (lines 250-255):
sets the dirty flag on the first change and re-renders the tab bar only on
that transition.  Returns the updated tab and whether a render happened. -/
def onContentChange (t : Tab) : Tab × Bool :=
  if t.isDirty then (t, false) else ({ t with isDirty := true }, true)

/-- Iterate `onContentChange` over `n` successive content changes, counting
how many tab-bar renders the observer triggers. -/
def changesCount : Tab → Nat → Tab × Nat
  | t, 0 => (t, 0)
  | t, Nat.succ n =>
    let p := onContentChange t
    let q := changesCount p.1 n
    (q.1, (if p.2 then 1 else 0) + q.2)

/-- The body of `closeTab` after the dirty-confirmation gate passed
(lines 276-283): splice the tab out, and when it was the active one switch
to the tab now at `Math.max(0, tabIdx - 1)` (Nat subtraction clamps at 0),
or to `-1` when the collection became empty. -/
def closeTabProceed (st : AppState) (tabId : Int) (tabIdx : Nat) : AppState :=
  let tabs' := st.tabs.eraseIdx tabIdx
  let st1 : AppState := { st with tabs := tabs' }
  if st.activeTabId = tabId then
    let newActiveIdx := tabIdx - 1
    let newActiveTab := if tabs'.length > 0 then tabs'.get? newActiveIdx else none
    switchTab st1 (match newActiveTab with | some t => t.id | none => -1)
  else st1

/-- `closeTab` (lines 260-290).  `confirmed` is the host's answer to
`confirm_dialog`, consulted only when the tab is dirty; an unknown id or a
declined confirmation returns early.  After a completed close, an empty
collection is refilled with one blank untitled tab. -/
def closeTab (langs : List (String × List String)) (st : AppState)
    (tabId : Int) (confirmed : Bool) : AppState :=
  match st.tabs.findIdx? (fun t => t.id == tabId) with
  | none => st
  | some tabIdx =>
    match st.tabs.get? tabIdx with
    | none => st
    | some tabToClose =>
      if tabToClose.isDirty && !confirmed then st
      else
        let st2 := closeTabProceed st tabId tabIdx
        if st2.tabs.length = 0 then addTab langs st2 none "" else st2

/-- The parsed surgical-edit JSON (lines 56-60): each field is `none` when
absent or JSON `null` (`data.x == null` catches both). -/
structure SurgData where
  start_line : Option Nat
  end_line : Option Nat
  start_column : Option Nat
  end_column : Option Nat
  replacement_code : Option String
deriving DecidableEq, Repr

/-- Split a character list at every newline, keeping empty segments
(JavaScript `split('\n')` semantics; the result is never empty). -/
def splitChars : List Char → List (List Char)
  | [] => [[]]
  | c :: cs =>
    if c = '\n' then [] :: splitChars cs
    else
      match splitChars cs with
      | [] => [[c]]
      | l :: r => (c :: l) :: r

/-- A Monaco model's content as its list of lines. -/
def modelLines (text : String) : List String := (splitChars text.data).map String.mk

/-- Monaco `model.getLineContent` (1-based), totalised with `""` out of
range. -/
def getLineContent (text : String) (ln : Nat) : String :=
  ((modelLines text).get? (ln - 1)).getD ""

/-- Monaco `model.getLineMaxColumn`: line length plus one (columns are
1-based and sit between characters). -/
def getLineMaxColumn (text : String) (ln : Nat) : Nat :=
  (getLineContent text ln).length + 1

/-- Monaco's single range edit (`pushEditOperations` with one operation):
replace the characters from (sl, sc) inclusive to (el, ec) exclusive by
`repl`. -/
def applyEditText (text : String) (sl sc el ec : Nat) (repl : String) : String :=
  let lines := modelLines text
  let pre := lines.take (sl - 1)
  let post := lines.drop el
  let head := (getLineContent text sl).take (sc - 1)
  let tail := (getLineContent text el).drop (ec - 1)
  String.intercalate "\n" (pre ++ [head ++ repl ++ tail] ++ post)

/-- JavaScript falsiness of a nullable column number (`null`, `undefined`
and `0` are falsy). -/
def colFalsy : Option Nat → Bool
  | none => true
  | some c => c == 0

/-- Line 68: `const startColumn = scol || 1`. -/
def resolveStartColumn (scol : Option Nat) : Nat :=
  match scol with
  | none => 1
  | some c => if c = 0 then 1 else c

/-- Line 69: `const endColumn = ecol || tab.model.getLineMaxColumn(eline)`. -/
def resolveEndColumn (ecol : Option Nat) (text : String) (eline : Nat) : Nat :=
  match ecol with
  | none => getLineMaxColumn text eline
  | some c => if c = 0 then getLineMaxColumn text eline else c

/-- `cancelSurgicalReplace` (lines 85-89): hide the modal and focus the
editor; no model mutation. -/
def cancelSurgicalReplace (st : AppState) : AppState :=
  { st with dialogOpen := false, editorFocused := true }

/-- Observable outcome of one `applySurgicalReplace` call: the resulting
state, how many error alerts were shown, how many edit operations were
pushed onto the model, and whether `cancelSurgicalReplace` ran. -/
structure SurgOutcome where
  st : AppState
  alerts : Nat
  editsPushed : Nat
  cancelCalled : Bool
deriving DecidableEq, Repr

/-- `applySurgicalReplace` (lines 47-83).  `raw` is the textarea content and
`parsed` the result of `JSON.parse(raw)` (`none` = the parse threw).  An
empty textarea cancels immediately; a parse failure or a missing/null
required field is caught and alerts without closing the dialog; otherwise,
when a tab is active, the resolved range is replaced in one edit (Monaco's
`getLineMaxColumn` throws — hence alerts — when a falsy `end_column` makes
it resolve an out-of-range `end_line`), the content-change observer marks
the tab dirty when the text changed, and the dialog closes. -/
def applySurgicalReplace (raw : String) (parsed : Option SurgData)
    (st : AppState) : SurgOutcome :=
  if raw = "" then
    ⟨cancelSurgicalReplace st, 0, 0, true⟩
  else
    match parsed with
    | none => ⟨st, 1, 0, false⟩
    | some d =>
      match d.start_line, d.end_line, d.replacement_code with
      | some sline, some eline, some text =>
        match getActiveTab st with
        | none => ⟨cancelSurgicalReplace st, 0, 0, true⟩
        | some tab =>
          if colFalsy d.end_column && !(decide (1 ≤ eline) && decide (eline ≤ (modelLines tab.text).length)) then
            ⟨st, 1, 0, false⟩
          else
            let startColumn := resolveStartColumn d.start_column
            let endColumn := resolveEndColumn d.end_column tab.text eline
            let newText := applyEditText tab.text sline startColumn eline endColumn text
            let st' : AppState := { st with tabs := st.tabs.map (fun t =>
              if t.id == st.activeTabId then
                { t with text := newText,
                         isDirty := if newText ≠ t.text then true else t.isDirty }
              else t) }
            ⟨cancelSurgicalReplace st', 0, 1, true⟩
      | _, _, _ => ⟨st, 1, 0, false⟩

/-- The host's response to `save_dialog` / `save_as_dialog`:
`{saved: bool, path}`. -/
structure SaveResponse where
  saved : Bool
  path : Option String
deriving DecidableEq, Repr

/-- `doSave` (lines 301-311).  `res` is the awaited host response (`none` =
no/empty response).  Only a response with `saved` set and a truthy `path`
mutates the active tab: new path, dirty cleared, language re-derived from
the new path.  The second component counts error alerts shown (the function
has no alert path). -/
def doSave (langs : List (String × List String)) (st : AppState)
    (res : Option SaveResponse) : AppState × Nat :=
  match getActiveTab st with
  | none => (st, 0)
  | some _tab =>
    match res with
    | none => (st, 0)
    | some r =>
      if r.saved && pathTruthy r.path then
        ({ st with tabs := st.tabs.map (fun t =>
            if t.id == st.activeTabId then
              { t with path := r.path, isDirty := false,
                       language := languageFromPath langs r.path }
            else t) }, 0)
      else (st, 0)

/-- The identity-relevant projection of a tab: everything except the saved
view state (which `switchTab` legitimately overwrites on the outgoing tab). -/
def tabKey (t : Tab) : Int × Option String × String × Bool :=
  (t.id, t.path, t.text, t.isDirty)

/-- A concrete one-tab state used to instantiate hypotheses of the theorems
below (clean tab, surgical dialog open). -/
def sampleTab : Tab := ⟨0, some "a.txt", "hello", "plaintext", none, false⟩

/-- See `sampleTab`. -/
def sampleState : AppState :=
  ⟨[sampleTab], 1, 0, ⟨some 0, ⟨5, 2, 3⟩⟩, true, false⟩

/-- A surgical-edit request whose `replacement_code` is missing. -/
def missData : SurgData := ⟨some 1, some 1, none, none, none⟩

/-- A one-tab state whose model is the single line `"0123456789"` of
length 10. -/
def tenState : AppState :=
  ⟨[⟨0, some "t.txt", "0123456789", "plaintext", none, false⟩], 1, 0,
   ⟨some 0, ⟨0, 1, 1⟩⟩, true, false⟩

/-- A two-tab state with tab 0 active and a distinctive editor view
state. -/
def twoTabState : AppState :=
  ⟨[⟨0, some "a.txt", "A", "plaintext", none, false⟩,
    ⟨1, some "b.txt", "B", "plaintext", none, false⟩], 2, 0,
   ⟨some 0, ⟨42, 3, 7⟩⟩, false, true⟩

/-- A one-tab state whose single tab is dirty. -/
def dirtyState : AppState :=
  ⟨[⟨0, some "a.txt", "hello", "plaintext", none, true⟩], 1, 0,
   ⟨some 0, ⟨5, 2, 3⟩⟩, false, true⟩

/-- A three-tab state (ids 0, 1, 2) with the middle tab active. -/
def threeTabState : AppState :=
  ⟨[⟨0, none, "a", "plaintext", none, false⟩,
    ⟨1, none, "b", "plaintext", none, false⟩,
    ⟨2, none, "c", "plaintext", none, false⟩], 3, 1,
   ⟨some 1, ⟨0, 1, 1⟩⟩, false, true⟩

/-- A one-tab state whose tab's path is the non-null but falsy empty
string. -/
def dupPathState : AppState :=
  ⟨[⟨0, some "", "hello", "plaintext", none, false⟩], 1, 0,
   ⟨some 0, ⟨0, 1, 1⟩⟩, false, true⟩

-- ===== helper lemmas =====

lemma find?_id_map (f : Tab → Tab) (hf : ∀ t, (f t).id = t.id)
    (l : List Tab) (i : Int) :
    (l.map f).find? (fun t => t.id == i) = (l.find? (fun t => t.id == i)).map f := by
  have hc : ((fun t : Tab => t.id == i) ∘ f) = fun t : Tab => t.id == i := by
    funext t
    simp [Function.comp, hf t]
  rw [List.find?_map, hc]

lemma saveViewTabs_length (st : AppState) :
    (saveViewTabs st).length = st.tabs.length := by
  unfold saveViewTabs
  cases getActiveTab st <;> simp

lemma saveViewTabs_tabKey (st : AppState) :
    (saveViewTabs st).map tabKey = st.tabs.map tabKey := by
  unfold saveViewTabs
  cases getActiveTab st
  · rfl
  · simp only [List.map_map]
    refine List.map_congr_left ?_
    intro t _
    by_cases ht : t.id == st.activeTabId <;> simp [Function.comp, ht, tabKey]

lemma switchTab_tabs (st : AppState) (i : Int) (h : ¬ st.activeTabId = i) :
    (switchTab st i).tabs = saveViewTabs st := by
  unfold switchTab
  rw [if_neg h]

lemma switchTab_activeTabId (st : AppState) (i : Int) :
    (switchTab st i).activeTabId = i := by
  unfold switchTab
  by_cases h : st.activeTabId = i
  · simp [h]
  · simp [h]

lemma switchTab_tabs_length (st : AppState) (i : Int) :
    (switchTab st i).tabs.length = st.tabs.length := by
  by_cases h : st.activeTabId = i
  · simp [switchTab, h]
  · rw [switchTab_tabs st i h, saveViewTabs_length]

lemma switchTab_tabs_tabKey (st : AppState) (i : Int) :
    (switchTab st i).tabs.map tabKey = st.tabs.map tabKey := by
  by_cases h : st.activeTabId = i
  · simp [switchTab, h]
  · rw [switchTab_tabs st i h, saveViewTabs_tabKey]

lemma find?_viewUpd (l : List Tab) (i j : Int) (v : ViewState) (t0 : Tab)
    (hfind : l.find? (fun t => t.id == i) = some t0) :
    (l.map (fun t =>
        if t.id == j then { t with viewState := some v } else t)).find?
        (fun t => t.id == i) =
      some (if t0.id == j then { t0 with viewState := some v } else t0) := by
  rw [List.find?_map]
  have hcomp : ((fun t : Tab => t.id == i) ∘ fun t : Tab =>
      if t.id == j then { t with viewState := some v } else t) =
      fun t : Tab => t.id == i := by
    funext t
    by_cases h : t.id == j <;> simp [Function.comp, h]
  rw [hcomp, hfind]
  rfl

lemma find?_pathUpd (langs : List (String × List String)) (l : List Tab)
    (i j : Int) (p : Option String) (t0 : Tab)
    (hfind : l.find? (fun t => t.id == i) = some t0) :
    (l.map (fun t =>
        if t.id == j then
          { t with path := p, isDirty := false,
                   language := languageFromPath langs p }
        else t)).find? (fun t => t.id == i) =
      some (if t0.id == j then
          { t0 with path := p, isDirty := false,
                    language := languageFromPath langs p }
        else t0) := by
  rw [List.find?_map]
  have hcomp : ((fun t : Tab => t.id == i) ∘ fun t : Tab =>
      if t.id == j then
        { t with path := p, isDirty := false,
                 language := languageFromPath langs p }
      else t) = fun t : Tab => t.id == i := by
    funext t
    by_cases h : t.id == j <;> simp [Function.comp, h]
  rw [hcomp, hfind]
  rfl

lemma switchTab_editor (st : AppState) (i : Int) (h : ¬ st.activeTabId = i)
    (t1 : Tab) (v : ViewState)
    (hfind2 : (saveViewTabs st).find? (fun t => t.id == i) = some t1)
    (hv : t1.viewState = some v) :
    (switchTab st i).editor.viewSt = v := by
  unfold switchTab
  rw [if_neg h]
  simp only [getTab, hfind2, hv]

lemma switchTab_tabs_of_empty (st : AppState) (i : Int) (h : st.tabs = []) :
    (switchTab st i).tabs = [] := by
  have hl := switchTab_tabs_length st i
  rw [h] at hl
  simpa using List.length_eq_zero.mp hl

lemma switchTab_tabs_of_single (st : AppState) (nt : Tab) (h : st.tabs = [nt]) :
    (switchTab st nt.id).tabs = [nt] := by
  by_cases hs : st.activeTabId = nt.id
  · simp [switchTab, hs, h]
  · rw [switchTab_tabs st nt.id hs]
    unfold saveViewTabs
    have hg : getActiveTab st = none := by
      unfold getActiveTab getTab
      rw [h]
      have hne : ¬ (nt.id = st.activeTabId) := fun hh => hs hh.symm
      simp [List.find?_singleton, hne]
    rw [hg, h]

lemma addTab_blank_of_empty (langs : List (String × List String))
    (st : AppState) (h : st.tabs = []) :
    (addTab langs st none "").tabs =
      [{ id := st.nextTabId, path := none, text := "",
         language := languageFromPath langs none, viewState := none,
         isDirty := false }] := by
  simp only [addTab, pathTruthy]
  simp only [Bool.false_eq_true, if_false]
  refine switchTab_tabs_of_single _
    { id := st.nextTabId, path := none, text := "",
      language := languageFromPath langs none, viewState := none,
      isDirty := false } ?_
  rw [h]
  rfl

lemma changesCount_dirty (t : Tab) (ht : t.isDirty = true) :
    ∀ n, changesCount t n = (t, 0) := by
  intro n
  induction n with
  | zero => rfl
  | succ n ih => simp [changesCount, onContentChange, ht, ih]

lemma addTab_fresh_length (langs : List (String × List String)) (st : AppState)
    (path : Option String) (text : String) (h : pathTruthy path = false) :
    (addTab langs st path text).tabs.length = st.tabs.length + 1 := by
  unfold addTab
  rw [h]
  simp only [Bool.false_eq_true, if_false]
  rw [switchTab_tabs_length]
  simp

lemma string_drop_length (s : String) : s.drop s.length = "" := by
  obtain ⟨l⟩ := s
  apply String.ext
  simp

-- ===== claim theorems =====

/-- C1: applying the surgical-replace dialog with nonempty, parseable JSON
that lacks `start_line`, `end_line` or `replacement_code` (or has it null)
shows exactly one error alert, leaves the whole state — in particular the
active model and the dialog-open flag — unchanged, pushes no edit operation
and never invokes the cancel/close routine. -/
theorem surgical_missing_field_error (raw : String) (d : SurgData) (st : AppState)
    (hraw : raw ≠ "")
    (hmiss : d.start_line = none ∨ d.end_line = none ∨ d.replacement_code = none) :
    (applySurgicalReplace raw (some d) st).alerts = 1 ∧
    (applySurgicalReplace raw (some d) st).st = st ∧
    (applySurgicalReplace raw (some d) st).editsPushed = 0 ∧
    (applySurgicalReplace raw (some d) st).cancelCalled = false := by
  obtain ⟨sl, el, sc, ec, rc⟩ := d
  unfold applySurgicalReplace
  rw [if_neg hraw]
  rcases hmiss with h | h | h
  · replace h : sl = none := h
    subst h
    cases el <;> cases rc <;> simp
  · replace h : el = none := h
    subst h
    cases sl <;> cases rc <;> simp
  · replace h : rc = none := h
    subst h
    cases sl <;> cases el <;> simp

/-- C1 witness: concrete invalid input (missing `replacement_code`) on the
sample state. -/
theorem surgical_missing_field_error_witness :
    (applySurgicalReplace "x" (some missData) sampleState).alerts = 1 ∧
    (applySurgicalReplace "x" (some missData) sampleState).st = sampleState ∧
    (applySurgicalReplace "x" (some missData) sampleState).editsPushed = 0 ∧
    (applySurgicalReplace "x" (some missData) sampleState).cancelCalled = false :=
  surgical_missing_field_error "x" missData sampleState (by decide)
    (Or.inr (Or.inr rfl))

/-- C10: applying the surgical-replace dialog with an empty input field
behaves exactly like cancelling: the dialog closes, focus returns to the
editor, no alert is shown, no edit is pushed, and the tab collection (hence
the active model) is untouched. -/
theorem surgical_empty_input_cancels (parsed : Option SurgData) (st : AppState) :
    (applySurgicalReplace "" parsed st).st = cancelSurgicalReplace st ∧
    (applySurgicalReplace "" parsed st).alerts = 0 ∧
    (applySurgicalReplace "" parsed st).editsPushed = 0 ∧
    (applySurgicalReplace "" parsed st).cancelCalled = true ∧
    (applySurgicalReplace "" parsed st).st.dialogOpen = false ∧
    (applySurgicalReplace "" parsed st).st.editorFocused = true ∧
    (applySurgicalReplace "" parsed st).st.tabs = st.tabs := by
  simp [applySurgicalReplace, cancelSurgicalReplace]

/-- C6: declining the unsaved-changes confirmation while closing a dirty
tab leaves the entire application state unchanged. -/
theorem closeTab_decline_noop (langs : List (String × List String))
    (st : AppState) (tabId : Int) (tabIdx : Nat) (tab : Tab)
    (hidx : st.tabs.findIdx? (fun t => t.id == tabId) = some tabIdx)
    (hget : st.tabs.get? tabIdx = some tab)
    (hdirty : tab.isDirty = true) :
    closeTab langs st tabId false = st := by
  have hget2 : st.tabs[tabIdx]? = some tab := by simpa using hget
  simp [closeTab, hidx, hget2, hdirty]

/-- C6 witness: declining the close of a concrete dirty tab. -/
theorem closeTab_decline_noop_witness :
    closeTab [] ⟨[⟨0, some "a.txt", "hello", "plaintext", none, true⟩], 1, 0,
        ⟨some 0, ⟨5, 2, 3⟩⟩, false, true⟩ 0 false =
      ⟨[⟨0, some "a.txt", "hello", "plaintext", none, true⟩], 1, 0,
        ⟨some 0, ⟨5, 2, 3⟩⟩, false, true⟩ :=
  closeTab_decline_noop [] _ 0 0 ⟨0, some "a.txt", "hello", "plaintext", none, true⟩
    (by decide) (by decide) rfl

/-- C7: the content-change observer sets the dirty flag on the first change
after creation (tabs are created clean), keeps it set on every later
change, and triggers a tab-bar render only on the false-to-true transition:
over any run of `n ≥ 1` changes starting from a clean tab exactly one
render occurs. -/
theorem dirty_first_change_only :
    (∀ t : Tab, t.isDirty = false →
      onContentChange t = ({ t with isDirty := true }, true)) ∧
    (∀ t : Tab, t.isDirty = true → onContentChange t = (t, false)) ∧
    (∀ (t : Tab) (n : Nat), t.isDirty = false → 1 ≤ n →
      (changesCount t n).1.isDirty = true ∧ (changesCount t n).2 = 1) := by
  refine ⟨?_, ?_, ?_⟩
  · intro t ht
    simp [onContentChange, ht]
  · intro t ht
    simp [onContentChange, ht]
  · intro t n ht hn
    obtain ⟨m, rfl⟩ : ∃ m, n = m + 1 := ⟨n - 1, by omega⟩
    simp [changesCount, onContentChange, ht, changesCount_dirty]

/-- C7 witness: three successive changes on a concrete clean tab leave it
dirty and render exactly once. -/
theorem dirty_first_change_only_witness :
    (changesCount ⟨0, none, "x", "plaintext", none, false⟩ 3).1.isDirty = true ∧
    (changesCount ⟨0, none, "x", "plaintext", none, false⟩ 3).2 = 1 :=
  dirty_first_change_only.2.2 ⟨0, none, "x", "plaintext", none, false⟩ 3 rfl
    (by decide)

/-- C2: in a surgical replace, a missing or falsy `start_column` resolves
to column 1 and a missing or falsy `end_column` resolves to the end line's
maximum column; consequently, on a target line of length 10 with
`end_column` omitted the resolved end column is 11 (= max column, one past
the last character) and the pushed edit replaces through the line end —
nothing of the end line survives after the replacement. -/
theorem surgical_column_defaults :
    (∀ sc : Option Nat, sc = none ∨ sc = some 0 → resolveStartColumn sc = 1) ∧
    (∀ (ec : Option Nat) (text : String) (eline : Nat), ec = none ∨ ec = some 0 →
      resolveEndColumn ec text eline = getLineMaxColumn text eline) ∧
    (∀ (raw : String) (st : AppState) (tab : Tab) (sline eline : Nat)
        (scol : Option Nat) (repl : String),
      raw ≠ "" →
      getActiveTab st = some tab →
      1 ≤ eline → eline ≤ (modelLines tab.text).length →
      (getLineContent tab.text eline).length = 10 →
      (resolveEndColumn none tab.text eline = 11 ∧
       (applySurgicalReplace raw
          (some ⟨some sline, some eline, scol, none, some repl⟩) st).editsPushed = 1 ∧
       ((getTab (applySurgicalReplace raw
            (some ⟨some sline, some eline, scol, none, some repl⟩) st).st
            st.activeTabId).map Tab.text) =
         some (String.intercalate "\n"
           ((modelLines tab.text).take (sline - 1) ++
            [(getLineContent tab.text sline).take (resolveStartColumn scol - 1) ++ repl] ++
            (modelLines tab.text).drop eline)))) := by
  refine ⟨?_, ?_, ?_⟩
  · rintro sc (rfl | rfl) <;> simp [resolveStartColumn]
  · rintro ec text eline (rfl | rfl) <;> simp [resolveEndColumn]
  · intro raw st tab sline eline scol repl hraw hact h1 h2 hlen
    have hmax : getLineMaxColumn tab.text eline = 11 := by
      simp [getLineMaxColumn, hlen]
    have hend : resolveEndColumn none tab.text eline = 11 := by
      simp [resolveEndColumn, hmax]
    have htail : (getLineContent tab.text eline).drop 10 = "" := by
      rw [← hlen]
      exact string_drop_length _
    have happ : applyEditText tab.text sline (resolveStartColumn scol) eline 11 repl =
        String.intercalate "\n"
          ((modelLines tab.text).take (sline - 1) ++
           [(getLineContent tab.text sline).take (resolveStartColumn scol - 1) ++ repl] ++
           (modelLines tab.text).drop eline) := by
      simp [applyEditText, htail]
    have hfind : st.tabs.find? (fun t => t.id == st.activeTabId) = some tab := hact
    have hid : (tab.id == st.activeTabId) = true := by
      have h := List.find?_some hfind
      exact h
    refine ⟨hend, ?_, ?_⟩
    · unfold applySurgicalReplace
      rw [if_neg hraw]
      simp only [hact, colFalsy, Bool.true_and]
      rw [if_neg (by simp [h1, h2])]
    · unfold applySurgicalReplace
      rw [if_neg hraw]
      simp only [hact, colFalsy, Bool.true_and]
      rw [if_neg (by simp [h1, h2])]
      simp only [getTab, cancelSurgicalReplace]
      rw [List.find?_map]
      have hcomp : ((fun t : Tab => t.id == st.activeTabId) ∘ fun t : Tab =>
          if (t.id == st.activeTabId) = true then
            { t with
              text := applyEditText tab.text sline (resolveStartColumn scol) eline
                (resolveEndColumn none tab.text eline) repl,
              isDirty := if applyEditText tab.text sline (resolveStartColumn scol) eline
                  (resolveEndColumn none tab.text eline) repl ≠ t.text then true
                else t.isDirty }
          else t) = fun t : Tab => t.id == st.activeTabId := by
        funext t
        by_cases ht : (t.id == st.activeTabId) = true <;> simp [Function.comp, ht]
      rw [hcomp, hfind]
      simp only [Option.map_some', hid, if_true, hend, happ]

/-- C2 witness: omitting `end_column` on the one-line model `"0123456789"`
(length 10) replaces through the line end. -/
theorem surgical_column_defaults_witness :
    resolveStartColumn none = 1 ∧
    resolveEndColumn none "0123456789" 1 = getLineMaxColumn "0123456789" 1 ∧
    (resolveEndColumn none "0123456789" 1 = 11 ∧
     (applySurgicalReplace "x"
        (some ⟨some 1, some 1, none, none, some "R"⟩) tenState).editsPushed = 1 ∧
     ((getTab (applySurgicalReplace "x"
          (some ⟨some 1, some 1, none, none, some "R"⟩) tenState).st
          tenState.activeTabId).map Tab.text) =
       some (String.intercalate "\n"
         ((modelLines "0123456789").take 0 ++
          [(getLineContent "0123456789" 1).take 0 ++ "R"] ++
          (modelLines "0123456789").drop 1))) :=
  ⟨surgical_column_defaults.1 none (Or.inl rfl),
   surgical_column_defaults.2.1 none "0123456789" 1 (Or.inl rfl),
   surgical_column_defaults.2.2 "x" tenState ⟨0, some "t.txt", "0123456789", "plaintext", none, false⟩
     1 1 none "R" (by decide) rfl (by decide) (by decide) (by decide)⟩

/-- C3 counterexample: the dedup key is JavaScript-truthy, not merely
non-null.  `dupPathState` holds one tab whose path is the non-null empty
string; calling `addTab` with that same non-null path creates a second tab
instead of switching to the existing one. -/
theorem addTab_nonnull_dedup_counterexample :
    dupPathState.tabs.map Tab.path = [some ""] ∧
    (addTab [] dupPathState (some "") "x").tabs.length ≠ dupPathState.tabs.length := by
  exact ⟨rfl, by decide⟩

/-- C3 (amended): for every `addTab(path, text)` where `path` is non-null
and non-empty and some existing tab has that path, no tab is created or
removed, every tab's id/path/text/dirty flag is unchanged (only the
outgoing tab's saved view state may be written), and the existing tab
becomes active; when `path` is null — or the falsy empty string — a new tab
is always created. -/
theorem addTab_dedup :
    (∀ (langs : List (String × List String)) (st : AppState)
        (p text : String) (t0 : Tab),
      p ≠ "" →
      st.tabs.find? (fun t => t.path == some p) = some t0 →
      ((addTab langs st (some p) text).tabs.length = st.tabs.length ∧
       (addTab langs st (some p) text).tabs.map tabKey = st.tabs.map tabKey ∧
       (addTab langs st (some p) text).activeTabId = t0.id)) ∧
    (∀ langs st text, (addTab langs st none text).tabs.length = st.tabs.length + 1) ∧
    (∀ langs st text, (addTab langs st (some "") text).tabs.length = st.tabs.length + 1) := by
  refine ⟨?_, ?_, ?_⟩
  · intro langs st p text t0 hp hfind
    have hred : addTab langs st (some p) text = switchTab st t0.id := by
      simp [addTab, pathTruthy, hp, hfind]
    rw [hred]
    exact ⟨switchTab_tabs_length st t0.id, switchTab_tabs_tabKey st t0.id,
      switchTab_activeTabId st t0.id⟩
  · intro langs st text
    exact addTab_fresh_length langs st none text rfl
  · intro langs st text
    exact addTab_fresh_length langs st (some "") text (by decide)

/-- C3 witness: opening an already-open non-empty path switches to it
without creating a tab; opening a null path always creates one. -/
theorem addTab_dedup_witness :
    ((addTab [] sampleState (some "a.txt") "zzz").tabs.length = sampleState.tabs.length ∧
     (addTab [] sampleState (some "a.txt") "zzz").tabs.map tabKey = sampleState.tabs.map tabKey ∧
     (addTab [] sampleState (some "a.txt") "zzz").activeTabId = sampleTab.id) ∧
    (addTab [] sampleState none "zzz").tabs.length = sampleState.tabs.length + 1 :=
  ⟨addTab_dedup.1 [] sampleState "a.txt" "zzz" sampleTab (by decide) (by decide),
   addTab_dedup.2.1 [] sampleState "zzz"⟩

/-- C8: `switchTab` on the already-active tab is a no-op, and switching
from the active tab to another tab and then back restores the first tab's
exact prior editor view state, regardless of how the live view state
changed in between: the outgoing tab's view state is saved on switch-away
and restored on switch-back. -/
theorem switchTab_view_roundtrip :
    (∀ st : AppState, switchTab st st.activeTabId = st) ∧
    (∀ (st : AppState) (b : Int) (v' : ViewState) (t0 : Tab),
      getActiveTab st = some t0 →
      b ≠ st.activeTabId →
      ((switchTab
          { switchTab st b with
            editor := { (switchTab st b).editor with viewSt := v' } }
          st.activeTabId).editor.viewSt = st.editor.viewSt ∧
       (switchTab
          { switchTab st b with
            editor := { (switchTab st b).editor with viewSt := v' } }
          st.activeTabId).activeTabId = st.activeTabId)) := by
  constructor
  · intro st
    simp [switchTab]
  · intro st b v' t0 hact hba
    have hfind : st.tabs.find? (fun t => t.id == st.activeTabId) = some t0 := hact
    have ht0 : (t0.id == st.activeTabId) = true := by
      have h := List.find?_some hfind
      exact h
    have ht0eq : t0.id = st.activeTabId := by simpa using ht0
    have hne1 : ¬ st.activeTabId = b := fun h => hba h.symm
    refine ⟨?_, switchTab_activeTabId _ _⟩
    set st2 : AppState :=
      { switchTab st b with
        editor := { (switchTab st b).editor with viewSt := v' } } with hst2
    have htabs2 : st2.tabs = st.tabs.map (fun t =>
        if t.id == st.activeTabId then
          { t with viewState := some st.editor.viewSt } else t) := by
      rw [hst2]
      show (switchTab st b).tabs = _
      rw [switchTab_tabs st b hne1]
      unfold saveViewTabs
      rw [hact]
    have hact2 : st2.activeTabId = b := by
      rw [hst2]
      show (switchTab st b).activeTabId = b
      exact switchTab_activeTabId st b
    have hne2 : ¬ st2.activeTabId = st.activeTabId := by
      rw [hact2]; exact hba
    have h1 : st2.tabs.find? (fun t => t.id == st.activeTabId) =
        some { t0 with viewState := some st.editor.viewSt } := by
      rw [htabs2, find?_viewUpd st.tabs st.activeTabId st.activeTabId
        st.editor.viewSt t0 hfind, ht0]
      simp
    have hsave2 : (saveViewTabs st2).find? (fun t => t.id == st.activeTabId) =
        some { t0 with viewState := some st.editor.viewSt } := by
      unfold saveViewTabs
      cases hg : getActiveTab st2
      · exact h1
      · rw [find?_viewUpd st2.tabs st.activeTabId st2.activeTabId
          st2.editor.viewSt _ h1]
        simp [hact2, ht0eq, hne1, switchTab_activeTabId]
    exact switchTab_editor st2 st.activeTabId hne2 _ _ hsave2 rfl

/-- C8 witness: on a concrete two-tab state, switching to the active tab is
a no-op, and switching tab 0 → tab 1 (then scrolling) → tab 0 restores
tab 0's original view state. -/
theorem switchTab_view_roundtrip_witness :
    (switchTab twoTabState twoTabState.activeTabId = twoTabState) ∧
    ((switchTab
        { switchTab twoTabState 1 with
          editor := { (switchTab twoTabState 1).editor with viewSt := ⟨9, 9, 9⟩ } }
        twoTabState.activeTabId).editor.viewSt = twoTabState.editor.viewSt ∧
     (switchTab
        { switchTab twoTabState 1 with
          editor := { (switchTab twoTabState 1).editor with viewSt := ⟨9, 9, 9⟩ } }
        twoTabState.activeTabId).activeTabId = twoTabState.activeTabId) :=
  ⟨switchTab_view_roundtrip.1 twoTabState,
   switchTab_view_roundtrip.2 twoTabState 1 ⟨9, 9, 9⟩
     ⟨0, some "a.txt", "A", "plaintext", none, false⟩ rfl (by decide)⟩

/-- C9: a save on an active tab whose host response indicates success and
carries a usable (truthy) path updates that tab's path, clears its dirty
flag and re-derives its language from the new path, shows no error, and
preserves the tab count and active pointer; an absent response, an
unsuccessful one, or one without a usable path (null or the falsy empty
string) leaves the state entirely unchanged and shows no error. -/
theorem doSave_success_and_noop :
    (∀ (langs : List (String × List String)) (st : AppState) (tab : Tab)
        (r : SaveResponse) (p : String),
      getActiveTab st = some tab →
      r.saved = true → r.path = some p → p ≠ "" →
      ((doSave langs st (some r)).2 = 0 ∧
       (doSave langs st (some r)).1.tabs.length = st.tabs.length ∧
       (doSave langs st (some r)).1.activeTabId = st.activeTabId ∧
       getActiveTab (doSave langs st (some r)).1 =
         some { tab with path := some p, isDirty := false,
                         language := languageFromPath langs (some p) })) ∧
    (∀ (langs : List (String × List String)) (st : AppState) (tab : Tab),
      getActiveTab st = some tab →
      doSave langs st none = (st, 0)) ∧
    (∀ (langs : List (String × List String)) (st : AppState) (tab : Tab)
        (r : SaveResponse),
      getActiveTab st = some tab →
      r.saved = false ∨ r.path = none ∨ r.path = some "" →
      doSave langs st (some r) = (st, 0)) := by
  refine ⟨?_, ?_, ?_⟩
  · intro langs st tab r p hact hsaved hpath hp
    have hfind : st.tabs.find? (fun t => t.id == st.activeTabId) = some tab := hact
    have hid : (tab.id == st.activeTabId) = true := by
      have h := List.find?_some hfind
      exact h
    have hcond : (r.saved && pathTruthy r.path) = true := by
      simp [hsaved, hpath, pathTruthy, hp]
    unfold doSave
    simp only [hact]
    rw [if_pos hcond]
    refine ⟨rfl, by simp, rfl, ?_⟩
    unfold getActiveTab getTab
    rw [find?_pathUpd langs st.tabs st.activeTabId st.activeTabId r.path tab hfind,
      hid]
    simp [hpath]
  · intro langs st tab hact
    unfold doSave
    simp only [hact]
  · intro langs st tab r hact hbad
    have hcond : ¬ ((r.saved && pathTruthy r.path) = true) := by
      rcases hbad with h | h | h <;> simp [h, pathTruthy]
    unfold doSave
    simp only [hact]
    rw [if_neg hcond]

/-- C9 witness: a successful save of the concrete dirty tab to `b.py`
updates path/dirty/language; an absent and an unsuccessful response leave
the state untouched. -/
theorem doSave_success_and_noop_witness :
    ((doSave [("python", [".py"])] dirtyState (some ⟨true, some "b.py"⟩)).2 = 0 ∧
     (doSave [("python", [".py"])] dirtyState
        (some ⟨true, some "b.py"⟩)).1.tabs.length = dirtyState.tabs.length ∧
     (doSave [("python", [".py"])] dirtyState
        (some ⟨true, some "b.py"⟩)).1.activeTabId = dirtyState.activeTabId ∧
     getActiveTab (doSave [("python", [".py"])] dirtyState
        (some ⟨true, some "b.py"⟩)).1 =
       some { (⟨0, some "a.txt", "hello", "plaintext", none, true⟩ : Tab) with
              path := some "b.py", isDirty := false,
              language := languageFromPath [("python", [".py"])] (some "b.py") }) ∧
    doSave [] dirtyState none = (dirtyState, 0) ∧
    doSave [] dirtyState (some ⟨false, some "x"⟩) = (dirtyState, 0) :=
  ⟨doSave_success_and_noop.1 [("python", [".py"])] dirtyState
     ⟨0, some "a.txt", "hello", "plaintext", none, true⟩ ⟨true, some "b.py"⟩
     "b.py" rfl rfl rfl (by decide),
   doSave_success_and_noop.2.1 [] dirtyState
     ⟨0, some "a.txt", "hello", "plaintext", none, true⟩ rfl,
   doSave_success_and_noop.2.2 [] dirtyState
     ⟨0, some "a.txt", "hello", "plaintext", none, true⟩ ⟨false, some "x"⟩
     rfl (Or.inl rfl)⟩

/-- C4: a completed `closeTab` never leaves zero tabs when at least one
existed before, and closing the sole remaining tab (when the close is not
declined) yields exactly one fresh blank untitled tab: no path, empty text,
clean. -/
theorem closeTab_never_empty :
    (∀ (langs : List (String × List String)) (st : AppState)
        (tabId : Int) (confirmed : Bool),
      st.tabs ≠ [] → (closeTab langs st tabId confirmed).tabs ≠ []) ∧
    (∀ (langs : List (String × List String)) (st : AppState)
        (t : Tab) (confirmed : Bool),
      st.tabs = [t] → (t.isDirty = true → confirmed = true) →
      ∃ nt, (closeTab langs st t.id confirmed).tabs = [nt] ∧
        nt.path = none ∧ nt.text = "" ∧ nt.isDirty = false ∧
        nt.language = languageFromPath langs none) := by
  constructor
  · intro langs st tabId confirmed hne
    cases hidx : st.tabs.findIdx? (fun t => t.id == tabId) with
    | none =>
      simp only [closeTab, hidx]
      exact hne
    | some tabIdx =>
      cases hget : st.tabs.get? tabIdx with
      | none =>
        simp only [closeTab, hidx, hget]
        exact hne
      | some tc =>
        by_cases hd : (tc.isDirty && !confirmed) = true
        · simp only [closeTab, hidx, hget, hd, if_true]
          exact hne
        · simp only [closeTab, hidx, hget]
          rw [if_neg hd]
          by_cases hz : (closeTabProceed st tabId tabIdx).tabs.length = 0
          · rw [if_pos hz]
            have hlen := addTab_fresh_length langs
              (closeTabProceed st tabId tabIdx) none "" rfl
            intro hcon
            rw [hcon] at hlen
            simp at hlen
          · rw [if_neg hz]
            intro hcon
            exact hz (by rw [hcon]; rfl)
  · intro langs st t confirmed hst hconf
    have hidx : st.tabs.findIdx? (fun tt => tt.id == t.id) = some 0 := by
      rw [hst]
      simp
    have hget : st.tabs.get? 0 = some t := by
      rw [hst]
      rfl
    have hd : (t.isDirty && !confirmed) = false := by
      cases hdt : t.isDirty
      · simp
      · simp [hconf hdt]
    have hst2 : (closeTabProceed st t.id 0).tabs = [] := by
      simp only [closeTabProceed]
      by_cases ha : st.activeTabId = t.id
      · rw [if_pos ha]
        apply switchTab_tabs_of_empty
        rw [hst]
        rfl
      · rw [if_neg ha]
        rw [hst]
        rfl
    refine ⟨⟨(closeTabProceed st t.id 0).nextTabId, none, "",
        languageFromPath langs none, none, false⟩, ?_, rfl, rfl, rfl, rfl⟩
    have hred : closeTab langs st t.id confirmed =
        addTab langs (closeTabProceed st t.id 0) none "" := by
      simp only [closeTab, hidx, hget, hd]
      rw [if_neg (by simp)]
      rw [if_pos (by rw [hst2]; rfl)]
    rw [hred]
    exact addTab_blank_of_empty langs _ hst2

/-- C4 witness: closing the active middle tab of a three-tab state leaves a
non-empty collection, and closing the sole clean tab of the sample state
yields exactly one fresh blank tab. -/
theorem closeTab_never_empty_witness :
    (closeTab [] threeTabState 1 true).tabs ≠ [] ∧
    ∃ nt, (closeTab [] sampleState sampleTab.id true).tabs = [nt] ∧
      nt.path = none ∧ nt.text = "" ∧ nt.isDirty = false ∧
      nt.language = languageFromPath [] none :=
  ⟨closeTab_never_empty.1 [] threeTabState 1 true (by decide),
   closeTab_never_empty.2 [] sampleState sampleTab true rfl (fun _ => rfl)⟩

/-- C5: when `closeTab` closes the currently-active tab and proceeds, the
new active tab (before any automatic blank tab is created, i.e. after
`closeTabProceed`) is the tab now at the closed tab's former index minus
one, clamped to zero; when the remaining collection is empty there is no
active tab (`activeTabId = -1`). -/
theorem closeTab_reactivation (st : AppState) (tabId : Int) (tabIdx : Nat)
    (hidx : st.tabs.findIdx? (fun t => t.id == tabId) = some tabIdx)
    (hactive : st.activeTabId = tabId) :
    ((st.tabs.eraseIdx tabIdx ≠ []) →
      ∃ t', (st.tabs.eraseIdx tabIdx).get? (tabIdx - 1) = some t' ∧
        (closeTabProceed st tabId tabIdx).activeTabId = t'.id) ∧
    (st.tabs.eraseIdx tabIdx = [] →
      (closeTabProceed st tabId tabIdx).activeTabId = -1) := by
  constructor
  · intro hne
    have hlt : tabIdx < st.tabs.length :=
      (List.findIdx?_eq_some_iff_findIdx_eq.mp hidx).1
    have hlt2 : tabIdx - 1 < (st.tabs.eraseIdx tabIdx).length := by
      have hgt : 0 < (st.tabs.eraseIdx tabIdx).length := List.length_pos.mpr hne
      have hel : (st.tabs.eraseIdx tabIdx).length = st.tabs.length - 1 :=
        List.length_eraseIdx_of_lt hlt
      omega
    obtain ⟨t', ht'⟩ : ∃ t',
        (st.tabs.eraseIdx tabIdx).get? (tabIdx - 1) = some t' := by
      rw [List.get?_eq_getElem?]
      exact ⟨_, List.getElem?_eq_getElem hlt2⟩
    refine ⟨t', ht', ?_⟩
    simp only [closeTabProceed]
    rw [if_pos hactive]
    rw [if_pos (List.length_pos.mpr hne), ht']
    exact switchTab_activeTabId _ _
  · intro hempty
    simp only [closeTabProceed]
    rw [if_pos hactive, hempty]
    rw [if_neg (by simp)]
    exact switchTab_activeTabId _ _

/-- C5 witness: closing the active middle tab (index 1) of the three-tab
state reactivates the tab now at index 0. -/
theorem closeTab_reactivation_witness :
    ∃ t', (threeTabState.tabs.eraseIdx 1).get? 0 = some t' ∧
      (closeTabProceed threeTabState 1 1).activeTabId = t'.id :=
  (closeTab_reactivation threeTabState 1 1 (by decide) rfl).1 (by decide)

end MonacoViewer
